import Mathlib

/-!
Verification of the talk-to-your-repo frontend client (src/frontend/src/App.js)
against its natural-language specification.

The client state of the `TalkToRepoApp` React component and its operations
(`processRepo`, `sendMessage`, the status-polling effect, and the rendering
helpers of `Message`, `FileTree` and the status badge) are embedded as pure
Lean functions.  Network interactions are modelled by passing the outcome of
each request explicitly and by recording the list of requests an operation
issues.
-/

namespace TalkToRepo

/-- A cited source attached to a chat answer: file path and 1-indexed line range. -/
structure Source where
  file_path : String
  start_line : Nat
  end_line : Nat
deriving DecidableEq

/-- One entry of the chat transcript, as stored in the `messages` state of the app. -/
structure ChatMsg where
  message : String
  isUser : Bool
  sources : List Source
deriving DecidableEq

/-- A conversation turn as sent to the backend chat endpoint. -/
structure Turn where
  role : String
  content : String
deriving DecidableEq

/-- Status snapshot held by the client, as returned by the status endpoint. -/
structure RepoStatus where
  status : String
  file_count : Nat
  processed_chunks : Nat
  error : Option String
deriving DecidableEq

/-- A node of the file tree returned by the files endpoint. -/
inductive FileNode where
  | file (path : String) : FileNode
  | folder (children : List (String × FileNode)) : FileNode

/-- Payload of the files endpoint; the FileTree component reads its `file_tree`
field and shows the placeholder when it is absent. -/
structure FilesData where
  file_tree : Option (List (String × FileNode))

/-- Response payload of the repository submission endpoint; `setRepoStatus(data)`
stores the whole payload, and the badge reads status, file_count and
processed_chunks from it. -/
structure SubmitData where
  repo_id : String
  name : String
  status : String
  file_count : Nat
  processed_chunks : Nat
  error : Option String
deriving DecidableEq

/-- The status-snapshot part of a submission response, as observed by the badge
and the polling effect after `setRepoStatus(data)`. -/
def SubmitData.toStatus (d : SubmitData) : RepoStatus :=
  ⟨d.status, d.file_count, d.processed_chunks, d.error⟩

/-- Network requests the client can issue. -/
inductive Request where
  | submitRepo (github_url : String)
  | getStatus (repo_id : String)
  | getFiles (repo_id : String)
  | chat (repo_id : String) (message : String) (conversation_history : List Turn)
deriving DecidableEq

/-- Client state of the `TalkToRepoApp` component (its useState hooks). -/
structure AppState where
  repoUrl : String
  repoId : Option String
  repoStatus : Option RepoStatus
  files : Option FilesData
  messages : List ChatMsg
  currentMessage : String
  isLoading : Bool
  isSending : Bool

/-- JavaScript truthiness of the `repoId` value: null and the empty string are falsy. -/
def optTruthy : Option String → Bool
  | none => false
  | some s => !(s == "")

/-- The JavaScript WhiteSpace and LineTerminator code points removed by
`String.prototype.trim`. -/
def jsWhitespace (c : Char) : Bool :=
  c.toNat == 9 || c.toNat == 10 || c.toNat == 11 || c.toNat == 12 || c.toNat == 13 ||
  c.toNat == 32 || c.toNat == 160 || c.toNat == 5760 ||
  (8192 ≤ c.toNat && c.toNat ≤ 8202) || c.toNat == 8232 || c.toNat == 8233 ||
  c.toNat == 8239 || c.toNat == 8287 || c.toNat == 12288 || c.toNat == 65279

/-- JavaScript `String.prototype.trim`: strip whitespace from both ends. -/
def jsTrim (s : String) : String :=
  ⟨((s.data.dropWhile jsWhitespace).reverse.dropWhile jsWhitespace).reverse⟩

/-- The status the client currently observes, `repoStatus?.status`. -/
def statusOf (st : AppState) : Option String := st.repoStatus.map (·.status)

/-- Outcome of the chat request issued by `sendMessage`: an ok response with
parsed body, a non-ok HTTP response, or a thrown network error. -/
inductive ChatOutcome where
  | ok (response : String) (sources : List Source)
  | httpError
  | networkError (err : String)

/-- Outcome of the submission request issued by `processRepo`. -/
inductive SubmitOutcome where
  | ok (data : SubmitData)
  | httpError
  | networkError (err : String)

/-- The fixed user-safe fallback text appended when a chat request fails. -/
def chatFallbackText : String := "❌ Sorry, I encountered an error. Please try again."

/-- `messages.slice(-5)`: the last five elements (all of them when fewer). -/
def sliceLast (n : Nat) (l : List α) : List α := l.drop (l.length - n)

/-- The `conversation_history` built in `sendMessage`: filter the transcript to
the entries with `!msg.isUser`, keep `slice(-5)`, and map each to a turn whose
role is user or assistant according to `msg.isUser`. -/
def conversationHistory (msgs : List ChatMsg) : List Turn :=
  (sliceLast 5 (msgs.filter (fun m => !m.isUser))).map
    (fun m => ⟨if m.isUser then "user" else "assistant", m.message⟩)

/-- The `sendMessage` handler: guarded by
`!currentMessage.trim() || !repoId || repoStatus?.status !== 'ready'`; otherwise
appends the user turn, issues the chat request, and appends either the parsed
response or the fixed fallback. -/
def sendMessage (st : AppState) (o : ChatOutcome) : AppState × List Request :=
  if jsTrim st.currentMessage = "" ∨ optTruthy st.repoId = false ∨ statusOf st ≠ some "ready" then
    (st, [])
  else
    match o with
    | .ok response sources =>
        ({ st with currentMessage := "", isSending := false,
                   messages := (st.messages ++ [⟨st.currentMessage, true, []⟩]) ++
                     [⟨response, false, sources⟩] },
         [Request.chat (st.repoId.getD "") st.currentMessage
            (conversationHistory (st.messages ++ [⟨st.currentMessage, true, []⟩]))])
    | .httpError =>
        ({ st with currentMessage := "", isSending := false,
                   messages := (st.messages ++ [⟨st.currentMessage, true, []⟩]) ++
                     [⟨chatFallbackText, false, []⟩] },
         [Request.chat (st.repoId.getD "") st.currentMessage
            (conversationHistory (st.messages ++ [⟨st.currentMessage, true, []⟩]))])
    | .networkError _ =>
        ({ st with currentMessage := "", isSending := false,
                   messages := (st.messages ++ [⟨st.currentMessage, true, []⟩]) ++
                     [⟨chatFallbackText, false, []⟩] },
         [Request.chat (st.repoId.getD "") st.currentMessage
            (conversationHistory (st.messages ++ [⟨st.currentMessage, true, []⟩]))])

/-- The text of the bot message posted after a successful submission. -/
def startedText (name : String) : String :=
  "Started processing repository: **" ++ name ++
    "**\n\nI\x27m analyzing the codebase and will be ready to chat once processing is complete!"

/-- The text of the bot message posted when submission fails. -/
def processFailText : String := "❌ Failed to process repository. Please check the URL and try again."

/-- The `processRepo` handler: guarded by `!repoUrl.trim()`; otherwise submits
the URL and either stores the returned job data or posts the failure message. -/
def processRepo (st : AppState) (o : SubmitOutcome) : AppState × List Request :=
  if jsTrim st.repoUrl = "" then (st, [])
  else
    match o with
    | .ok data =>
        ({ st with isLoading := false,
                   repoId := some data.repo_id,
                   repoStatus := some data.toStatus,
                   messages := [⟨startedText data.name, false, []⟩] },
         [Request.submitRepo st.repoUrl])
    | .httpError =>
        ({ st with isLoading := false, messages := [⟨processFailText, false, []⟩] },
         [Request.submitRepo st.repoUrl])
    | .networkError _ =>
        ({ st with isLoading := false, messages := [⟨processFailText, false, []⟩] },
         [Request.submitRepo st.repoUrl])

/-- The condition of the polling effect: `repoId && repoStatus?.status === 'processing'`. -/
def shouldPoll (st : AppState) : Bool :=
  optTruthy st.repoId && decide (statusOf st = some "processing")

/-- One tick of the polling interval: when active, fetch the status; on an ok
response store it, and when the new status is ready also fetch the file tree. -/
def pollTick (st : AppState) (statusResp : Option RepoStatus) (filesResp : Option FilesData) :
    AppState × List Request :=
  if shouldPoll st = false then (st, [])
  else
    match statusResp with
    | none => (st, [Request.getStatus (st.repoId.getD "")])
    | some status =>
        if status.status = "ready" then
          match filesResp with
          | some fd =>
              ({ st with repoStatus := some status, files := some fd },
               [Request.getStatus (st.repoId.getD ""), Request.getFiles (st.repoId.getD "")])
          | none =>
              ({ st with repoStatus := some status },
               [Request.getStatus (st.repoId.getD ""), Request.getFiles (st.repoId.getD "")])
        else
          ({ st with repoStatus := some status }, [Request.getStatus (st.repoId.getD "")])

/-- The text nodes rendered inside the status badge:
status, file count and processed chunk count. -/
def statusBadgeTexts (rs : RepoStatus) : List String :=
  [rs.status, " - ", toString rs.file_count, " files, ", toString rs.processed_chunks, " chunks"]

/-- A rendered source citation: the file path and the line-range text. -/
structure Citation where
  file_path : String
  line_text : String
deriving DecidableEq

/-- How the Message component renders one source item. -/
def renderCitation (s : Source) : Citation :=
  ⟨s.file_path, "lines " ++ toString s.start_line ++ "-" ++ toString s.end_line⟩

/-- The Sources section of a message: rendered only when `sources.length > 0`,
one citation per source item. -/
def renderSourcesSection (sources : List Source) : Option (List Citation) :=
  if 0 < sources.length then some (sources.map renderCitation) else none

/-- Whether the FileTree pane shows a listing (as opposed to the
No-files-loaded placeholder): it requires `files?.file_tree` to be present. -/
def showsListing (st : AppState) : Bool :=
  match st.files with
  | none => false
  | some fd => fd.file_tree.isSome

/-- UI events the app can process, each carrying the outcome of the network
request it triggers. -/
inductive Event where
  | setUrl (s : String)
  | setMsg (s : String)
  | submit (o : SubmitOutcome)
  | poll (statusResp : Option RepoStatus) (filesResp : Option FilesData)
  | send (o : ChatOutcome)

/-- One step of the client: URL edits and submissions are only possible while
the URL input section is rendered, i.e. while `repoId` is falsy. -/
def step (st : AppState) (e : Event) : AppState × List Request :=
  match e with
  | .setUrl s => if optTruthy st.repoId = true then (st, []) else ({ st with repoUrl := s }, [])
  | .setMsg s => ({ st with currentMessage := s }, [])
  | .submit o => if optTruthy st.repoId = true then (st, []) else processRepo st o
  | .poll sr fr => pollTick st sr fr
  | .send o => sendMessage st o

/-- The initial client state set by the useState hooks. -/
def initState : AppState := ⟨"", none, none, none, [], "", false, false⟩

/-- The state reached after processing a sequence of events from the initial state. -/
def run (events : List Event) : AppState :=
  events.foldl (fun st e => (step st e).1) initState

/-- The backtick character that delimits fenced code blocks. -/
def backtick : Char := Char.ofNat 96

/-- Whether a character sequence begins with three backticks. -/
def startsWithTicks : List Char → Bool
  | a :: b :: c :: _ => a == backtick && b == backtick && c == backtick
  | _ => false

/-- Index of the first occurrence of three consecutive backticks, if any. -/
def findTriple : List Char → Option Nat
  | [] => none
  | c :: rest =>
      if startsWithTicks (c :: rest) then some 0 else (findTriple rest).map (· + 1)

theorem startsWithTicks_length {s : List Char} (h : startsWithTicks s = true) :
    3 ≤ s.length := by
  match s with
  | a :: b :: c :: t => simp [List.length]
  | [] => simp [startsWithTicks] at h
  | [a] => simp [startsWithTicks] at h
  | [a, b] => simp [startsWithTicks] at h

theorem findTriple_bound : ∀ {s : List Char} {i : Nat}, findTriple s = some i → i + 3 ≤ s.length := by
  intro s
  induction s with
  | nil => intro i h; simp [findTriple] at h
  | cons c rest ih =>
      intro i h
      unfold findTriple at h
      split at h
      · next ht =>
          have h0 : i = 0 := by
            have := Option.some.inj h
            omega
          subst h0
          exact startsWithTicks_length ht
      · next ht =>
          rcases Option.map_eq_some'.mp h with ⟨j, hj, hji⟩
          have := ih hj
          simp [List.length]
          omega

/-- The split of a message on fenced code blocks performed by
`renderMessageContent`, modelling
`content.split(/(` with three backticks, a lazy any-character run, and three
closing backticks `)/g)`: JavaScript split with a capturing group keeps the
matched separators in the result, so the parts alternate between plain text
and code-block matches. -/
def splitCodeBlocksL (s : List Char) : List (List Char) :=
  match h1 : findTriple s with
  | none => [s]
  | some i =>
      match findTriple (s.drop (i + 3)) with
      | none => [s]
      | some k =>
          s.take i :: (s.drop i).take (k + 6) :: splitCodeBlocksL (s.drop (i + (k + 6)))
termination_by s.length
decreasing_by
  have hb := findTriple_bound h1
  simp [List.length_drop]
  omega

/-- The parts produced from a message string by the code-block split. -/
def splitMessage (content : String) : List String :=
  (splitCodeBlocksL content.data).map String.mk

/-- C1: whenever the observed job status is not ready, invoking sendMessage
issues no request at all and leaves the entire client state, in particular the
message transcript, unchanged. -/
theorem chat_blocked_when_not_ready (st : AppState) (o : ChatOutcome)
    (h : statusOf st ≠ some "ready") : sendMessage st o = (st, []) := by
  unfold sendMessage
  rw [if_pos (Or.inr (Or.inr h))]

/-- Concrete instance of C1: a state whose job is still processing. -/
def stC1 : AppState :=
  { repoUrl := "https://github.com/u/r", repoId := some "r1",
    repoStatus := some ⟨"processing", 3, 4, none⟩, files := none,
    messages := [⟨"earlier answer", false, []⟩], currentMessage := "hello",
    isLoading := false, isSending := false }

theorem chat_blocked_when_not_ready_witness :
    sendMessage stC1 ChatOutcome.httpError = (stC1, []) :=
  chat_blocked_when_not_ready stC1 ChatOutcome.httpError (by decide)

/-- Concrete transcript for C2: a prior user turn, a prior assistant turn, and
a freshly typed question in a ready state. -/
def stC2 : AppState :=
  { repoUrl := "https://github.com/u/r", repoId := some "r1",
    repoStatus := some ⟨"ready", 3, 4, none⟩, files := none,
    messages := [⟨"hello", true, []⟩, ⟨"hi there", false, []⟩],
    currentMessage := "next question", isLoading := false, isSending := false }

/-- C2: the chat request built from a transcript holding the prior user turn
"hello" and the prior assistant turn "hi there" carries a conversation_history
holding only the assistant turn; the user turn is dropped by the
filter on !msg.isUser, contradicting the claim that the history is the window
of the most recent prior turns of both roles. -/
theorem history_omits_user_turns :
    (sendMessage stC2 (ChatOutcome.ok "ans" [])).2 =
      [Request.chat "r1" "next question" [⟨"assistant", "hi there"⟩]] ∧
    Turn.mk "user" "hello" ∉
      conversationHistory (stC2.messages ++ [⟨stC2.currentMessage, true, []⟩]) := by
  constructor
  · decide
  · decide

/-- C10: the transcript is append-only under sendMessage: the new message list
extends the old one, and the extension is either empty (guarded call) or
exactly the user turn followed by one non-user turn. -/
theorem transcript_append_only (st : AppState) (o : ChatOutcome) :
    ∃ tail, (sendMessage st o).1.messages = st.messages ++ tail ∧
      (tail = [] ∨ ∃ t : ChatMsg, t.isUser = false ∧
        tail = [⟨st.currentMessage, true, []⟩, t]) := by
  unfold sendMessage
  split
  · exact ⟨[], by simp, Or.inl rfl⟩
  · cases o with
    | ok response sources =>
        refine ⟨[⟨st.currentMessage, true, []⟩, ⟨response, false, sources⟩], ?_,
          Or.inr ⟨⟨response, false, sources⟩, rfl, rfl⟩⟩
        simp
    | httpError =>
        refine ⟨[⟨st.currentMessage, true, []⟩, ⟨chatFallbackText, false, []⟩], ?_,
          Or.inr ⟨⟨chatFallbackText, false, []⟩, rfl, rfl⟩⟩
        simp
    | networkError e =>
        refine ⟨[⟨st.currentMessage, true, []⟩, ⟨chatFallbackText, false, []⟩], ?_,
          Or.inr ⟨⟨chatFallbackText, false, []⟩, rfl, rfl⟩⟩
        simp

theorem joinMk : ∀ L : List (List Char),
    (L.map String.mk).foldr (fun a b => a ++ b) "" = String.mk (L.foldr (fun a b => a ++ b) []) := by
  intro L
  induction L with
  | nil => rfl
  | cons a rest ih => simp only [List.map, List.foldr]; rw [ih]; rfl

theorem splitL_concat_aux : ∀ (n : Nat) (s : List Char), s.length ≤ n →
    (splitCodeBlocksL s).foldr (fun a b => a ++ b) [] = s := by
  intro n
  induction n with
  | zero =>
      intro s hs
      have hnil : s = [] := List.eq_nil_of_length_eq_zero (Nat.le_zero.mp hs)
      subst hnil
      rw [splitCodeBlocksL]
      simp [findTriple]
  | succ n ih =>
      intro s hs
      rw [splitCodeBlocksL]
      split
      · simp
      · split
        · simp
        · next i hi o k hk =>
            simp only [List.foldr]
            rw [ih (s.drop (i + (k + 6))) ?_]
            · have key : List.drop (i + (k + 6)) s = List.drop (k + 6) (List.drop i s) := by
                rw [List.drop_drop]
              rw [key, List.take_append_drop, List.take_append_drop]
            · have hb := findTriple_bound hi
              simp only [List.length_drop]
              omega

/-- C9: the split of a message on fenced code blocks is lossless: the parts
concatenate back to exactly the original message string. -/
theorem split_message_lossless (content : String) :
    (splitMessage content).foldr (fun a b => a ++ b) "" = content := by
  obtain ⟨data⟩ := content
  show ((splitCodeBlocksL data).map String.mk).foldr (fun a b => a ++ b) "" = String.mk data
  rw [joinMk]
  exact congrArg String.mk (splitL_concat_aux data.length data le_rfl)

/-- Whether `needle` occurs as a contiguous subsequence of `hay`. -/
def listContains (needle hay : List Char) : Bool :=
  match hay with
  | [] => needle.isEmpty
  | _ :: t => needle.isPrefixOf hay || listContains needle t

/-- A failed status snapshot with an error cause, for C3. -/
def failedSnapshot : RepoStatus := ⟨"failed", 3, 7, some "clone error"⟩

/-- C3 counterexample: on a failed snapshot the badge shows the status value and
the counters, but the error cause appears nowhere in the rendered text, neither
as a text node nor as a substring of the joined badge text. -/
theorem status_badge_omits_error :
    failedSnapshot.status = "failed" ∧
    failedSnapshot.error = some "clone error" ∧
    "clone error" ∉ statusBadgeTexts failedSnapshot ∧
    listContains "clone error".data (String.join (statusBadgeTexts failedSnapshot)).data = false := by
  refine ⟨rfl, rfl, by decide, by decide⟩

/-- C3 amended: the badge reports the true status value, file count and
processed chunk count of every snapshot the client holds; the error field is
not part of the display. -/
theorem status_badge_reports_state (rs : RepoStatus) :
    rs.status ∈ statusBadgeTexts rs ∧
    toString rs.file_count ∈ statusBadgeTexts rs ∧
    toString rs.processed_chunks ∈ statusBadgeTexts rs := by
  refine ⟨?_, ?_, ?_⟩ <;> simp [statusBadgeTexts]

/-- C4: when the guard passes and the chat request fails, either with a non-ok
HTTP response or with a thrown network error, the transcript receives the user
turn followed by exactly one fixed user-safe fallback turn with an empty source
list; the resulting transcript is the same fixed list whatever the transport
error text was, so the raw error is never shown. -/
theorem chat_failure_fallback (st : AppState) (e : String)
    (h : ¬(jsTrim st.currentMessage = "" ∨ optTruthy st.repoId = false ∨
      statusOf st ≠ some "ready")) :
    (sendMessage st ChatOutcome.httpError).1.messages =
      st.messages ++ [⟨st.currentMessage, true, []⟩, ⟨chatFallbackText, false, []⟩] ∧
    (sendMessage st (ChatOutcome.networkError e)).1.messages =
      st.messages ++ [⟨st.currentMessage, true, []⟩, ⟨chatFallbackText, false, []⟩] := by
  constructor <;> · simp only [sendMessage, if_neg h]; simp

/-- Concrete ready state used to instantiate C4. -/
def stC4 : AppState :=
  { repoUrl := "https://github.com/u/r", repoId := some "r1",
    repoStatus := some ⟨"ready", 3, 4, none⟩, files := none,
    messages := [⟨"hi there", false, []⟩], currentMessage := "hello",
    isLoading := false, isSending := false }

theorem chat_failure_fallback_witness :
    (sendMessage stC4 ChatOutcome.httpError).1.messages =
      stC4.messages ++ [⟨"hello", true, []⟩, ⟨chatFallbackText, false, []⟩] ∧
    (sendMessage stC4 (ChatOutcome.networkError "ECONNREFUSED")).1.messages =
      stC4.messages ++ [⟨"hello", true, []⟩, ⟨chatFallbackText, false, []⟩] :=
  chat_failure_fallback stC4 "ECONNREFUSED" (by decide)

/-- A submitted job whose observed status is queued, for C5. -/
def stC5 : AppState :=
  { repoUrl := "https://github.com/u/r", repoId := some "r1",
    repoStatus := some ⟨"queued", 0, 0, none⟩, files := none, messages := [],
    currentMessage := "", isLoading := false, isSending := false }

/-- C5 counterexample: queued is a non-terminal status, yet the polling effect
is inactive on it and a poll tick neither changes state nor issues a status
request; the client polls only while the observed status is processing. -/
theorem no_polling_when_queued :
    statusOf stC5 = some "queued" ∧
    ("queued" ≠ "ready" ∧ "queued" ≠ "failed") ∧
    shouldPoll stC5 = false ∧
    pollTick stC5 none none = (stC5, []) := by
  refine ⟨rfl, ⟨by decide, by decide⟩, by decide, ?_⟩
  unfold pollTick
  rw [if_pos (by decide : shouldPoll stC5 = false)]

/-- C5 amended: the polling effect is active exactly while repoId is truthy and
the observed status is processing, and after a poll tick observes a terminal
status, ready or failed, polling is inactive. -/
theorem polling_iff_processing (st : AppState) :
    (shouldPoll st = true ↔ (optTruthy st.repoId = true ∧ statusOf st = some "processing")) ∧
    (∀ (s : RepoStatus) (fr : Option FilesData),
      s.status = "ready" ∨ s.status = "failed" →
      shouldPoll (pollTick st (some s) fr).1 = false) := by
  constructor
  · simp [shouldPoll, Bool.and_eq_true, decide_eq_true_eq]
  · intro s fr hterm
    by_cases hp : shouldPoll st = false
    · unfold pollTick
      rw [if_pos hp]
      exact hp
    · unfold pollTick
      rw [if_neg hp]
      dsimp only
      have hne : s.status ≠ "processing" := by
        rcases hterm with h | h <;> · rw [h]; decide
      by_cases hr : s.status = "ready"
      · rw [if_pos hr]
        cases fr with
        | some fd => simp [shouldPoll, statusOf, hne]
        | none => simp [shouldPoll, statusOf, hne]
      · rw [if_neg hr]
        simp [shouldPoll, statusOf, hne]

/-- A state with an active polling effect, for the C5 witness. -/
def stC5p : AppState :=
  { repoUrl := "https://github.com/u/r", repoId := some "r1",
    repoStatus := some ⟨"processing", 2, 1, none⟩, files := none, messages := [],
    currentMessage := "", isLoading := false, isSending := false }

theorem polling_iff_processing_witness :
    shouldPoll (pollTick stC5p (some ⟨"ready", 2, 6, none⟩) none).1 = false :=
  (polling_iff_processing stC5p).2 ⟨"ready", 2, 6, none⟩ none (Or.inl rfl)

/-- Auxiliary invariant for C6: a stored file tree implies a truthy job id and
an observed ready status. -/
def FilesInv (st : AppState) : Prop :=
  st.files.isSome = true → (optTruthy st.repoId = true ∧ statusOf st = some "ready")

theorem processRepo_preserves_filesInv (st : AppState) (o : SubmitOutcome)
    (hid : optTruthy st.repoId = false) (hinv : FilesInv st) :
    FilesInv (processRepo st o).1 := by
  unfold processRepo
  split
  · exact hinv
  · cases o with
    | ok data =>
        intro hf
        have ht := (hinv hf).1
        rw [ht] at hid
        simp at hid
    | httpError => intro hf; exact hinv hf
    | networkError e => intro hf; exact hinv hf

theorem pollTick_preserves_filesInv (st : AppState) (sr : Option RepoStatus)
    (fr : Option FilesData) (hinv : FilesInv st) : FilesInv (pollTick st sr fr).1 := by
  unfold pollTick
  by_cases hp : shouldPoll st = false
  · rw [if_pos hp]; exact hinv
  · rw [if_neg hp]
    have hpt : optTruthy st.repoId = true ∧ statusOf st = some "processing" := by
      have hb : shouldPoll st = true := by
        cases hb : shouldPoll st
        · exact absurd hb hp
        · rfl
      simpa [shouldPoll, Bool.and_eq_true, decide_eq_true_eq] using hb
    have hfn : st.files.isSome = false := by
      cases hb : st.files.isSome
      · rfl
      · have h2 := (hinv hb).2
        rw [hpt.2] at h2
        simp at h2
    cases sr with
    | none => exact hinv
    | some status =>
        dsimp only
        by_cases hr : status.status = "ready"
        · rw [if_pos hr]
          cases fr with
          | some fd =>
              intro hf
              exact ⟨hpt.1, by simp [statusOf, hr]⟩
          | none =>
              intro hf
              have hft : st.files.isSome = true := hf
              rw [hft] at hfn
              exact absurd hfn (by decide)
        · rw [if_neg hr]
          intro hf
          have hft : st.files.isSome = true := hf
          rw [hft] at hfn
          exact absurd hfn (by decide)

theorem sendMessage_preserves_filesInv (st : AppState) (o : ChatOutcome)
    (hinv : FilesInv st) : FilesInv (sendMessage st o).1 := by
  unfold sendMessage
  split
  · exact hinv
  · cases o with
    | ok response sources => intro hf; exact hinv hf
    | httpError => intro hf; exact hinv hf
    | networkError e => intro hf; exact hinv hf

theorem step_preserves_filesInv (st : AppState) (e : Event) (hinv : FilesInv st) :
    FilesInv (step st e).1 := by
  cases e with
  | setUrl s =>
      show FilesInv ((if optTruthy st.repoId = true then (st, ([] : List Request))
        else ({ st with repoUrl := s }, [])).1)
      split
      · exact hinv
      · intro hf; exact hinv hf
  | setMsg s => intro hf; exact hinv hf
  | submit o =>
      show FilesInv ((if optTruthy st.repoId = true then (st, ([] : List Request))
        else processRepo st o).1)
      split
      · exact hinv
      · next hgate =>
          refine processRepo_preserves_filesInv st o ?_ hinv
          cases hb : optTruthy st.repoId
          · rfl
          · exact absurd hb hgate
  | poll sr fr => exact pollTick_preserves_filesInv st sr fr hinv
  | send o => exact sendMessage_preserves_filesInv st o hinv

theorem run_filesInv (events : List Event) : FilesInv (run events) := by
  have haux : ∀ (evs : List Event) (st : AppState), FilesInv st →
      FilesInv (evs.foldl (fun st e => (step st e).1) st) := by
    intro evs
    induction evs with
    | nil => intro st h; exact h
    | cons e rest ih => intro st h; exact ih _ (step_preserves_filesInv st e h)
  exact haux events initState (by intro hf; exact absurd hf (by decide))

theorem showsListing_isSome (st : AppState) (h : showsListing st = true) :
    st.files.isSome = true := by
  unfold showsListing at h
  cases hfl : st.files with
  | none => rw [hfl] at h; simp at h
  | some fd => rfl

/-- C6: the file tree is requested only by a poll tick that observed status
ready, never by submission or chat; and in every state reachable from the
initial one, a displayed file listing implies the job has been observed ready,
so before such an observation the pane shows only the placeholder. -/
theorem files_only_after_ready :
    (∀ (st : AppState) (sr : Option RepoStatus) (fr : Option FilesData) (p : String),
        Request.getFiles p ∈ (pollTick st sr fr).2 →
          ∃ s, sr = some s ∧ s.status = "ready") ∧
    (∀ (st : AppState) (o : SubmitOutcome) (p : String),
        Request.getFiles p ∉ (processRepo st o).2) ∧
    (∀ (st : AppState) (o : ChatOutcome) (p : String),
        Request.getFiles p ∉ (sendMessage st o).2) ∧
    (∀ events : List Event,
        showsListing (run events) = true → statusOf (run events) = some "ready") := by
  refine ⟨?_, ?_, ?_, ?_⟩
  · intro st sr fr p hmem
    unfold pollTick at hmem
    split at hmem
    · simp at hmem
    · cases sr with
      | none => simp at hmem
      | some status =>
          dsimp only at hmem
          by_cases hr : status.status = "ready"
          · exact ⟨status, rfl, hr⟩
          · rw [if_neg hr] at hmem
            simp at hmem
  · intro st o p hmem
    unfold processRepo at hmem
    split at hmem
    · simp at hmem
    · cases o <;> simp at hmem
  · intro st o p hmem
    unfold sendMessage at hmem
    split at hmem
    · simp at hmem
    · cases o <;> simp at hmem
  · intro events h
    exact (run_filesInv events (showsListing_isSome _ h)).2

/-- Submission payload used in the C6 witness trace. -/
def demoSubmit : SubmitData := ⟨"r1", "demo", "processing", 2, 0, none⟩

/-- Ready snapshot used in the C6 witness trace. -/
def demoReady : RepoStatus := ⟨"ready", 2, 6, none⟩

/-- Files payload used in the C6 witness trace. -/
def demoTree : FilesData := ⟨some [("src", FileNode.folder [("app.js", FileNode.file "src/app.js")])]⟩

/-- A concrete trace: type a URL, submit it, and poll once observing ready. -/
def demoEvents : List Event :=
  [Event.setUrl "https://github.com/u/r", Event.submit (SubmitOutcome.ok demoSubmit),
   Event.poll (some demoReady) (some demoTree)]

theorem files_only_after_ready_witness :
    statusOf (run demoEvents) = some "ready" :=
  files_only_after_ready.2.2.2 demoEvents (by decide)

/-- C7: on a successful chat response the appended assistant turn carries the
returned sources unchanged; the Sources section is rendered exactly when the
source list is nonempty, and the rendered citations are, item by item, the file
path together with the start-to-end line-range text of each source. -/
theorem sources_rendered (st : AppState) (response : String) (srcs : List Source)
    (h : ¬(jsTrim st.currentMessage = "" ∨ optTruthy st.repoId = false ∨
      statusOf st ≠ some "ready")) :
    (sendMessage st (ChatOutcome.ok response srcs)).1.messages =
      st.messages ++ [⟨st.currentMessage, true, []⟩, ⟨response, false, srcs⟩] ∧
    ((renderSourcesSection srcs).isSome = true ↔ srcs ≠ []) ∧
    (renderSourcesSection srcs).getD [] =
      srcs.map (fun s =>
        ⟨s.file_path, "lines " ++ toString s.start_line ++ "-" ++ toString s.end_line⟩) := by
  refine ⟨?_, ?_, ?_⟩
  · simp only [sendMessage, if_neg h]
    simp
  · unfold renderSourcesSection
    by_cases hs : 0 < srcs.length
    · rw [if_pos hs]
      have hne := List.length_pos.mp hs
      simp [hne]
    · rw [if_neg hs]
      have hnil : srcs = [] := by
        cases srcs with
        | nil => rfl
        | cons a t => exact absurd (by simp) hs
      simp [hnil]
  · unfold renderSourcesSection
    by_cases hs : 0 < srcs.length
    · rw [if_pos hs]
      rfl
    · rw [if_neg hs]
      have hnil : srcs = [] := by
        cases srcs with
        | nil => rfl
        | cons a t => exact absurd (by simp) hs
      simp [hnil]

/-- Concrete ready state for the C7 witness. -/
def stC7 : AppState :=
  { repoUrl := "https://github.com/u/r", repoId := some "r1",
    repoStatus := some ⟨"ready", 3, 4, none⟩, files := none,
    messages := [], currentMessage := "ask",
    isLoading := false, isSending := false }

theorem sources_rendered_witness :
    (sendMessage stC7 (ChatOutcome.ok "ans" [⟨"src/a.py", 3, 9⟩])).1.messages =
      stC7.messages ++ [⟨"ask", true, []⟩, ⟨"ans", false, [⟨"src/a.py", 3, 9⟩]⟩] ∧
    ((renderSourcesSection [⟨"src/a.py", 3, 9⟩]).isSome = true ↔
      ([⟨"src/a.py", 3, 9⟩] : List Source) ≠ []) ∧
    (renderSourcesSection [⟨"src/a.py", 3, 9⟩]).getD [] =
      ([⟨"src/a.py", 3, 9⟩] : List Source).map (fun s =>
        ⟨s.file_path, "lines " ++ toString s.start_line ++ "-" ++ toString s.end_line⟩) :=
  sources_rendered stC7 "ans" [⟨"src/a.py", 3, 9⟩] (by decide)

/-- C8: a repository locator that is empty or consists only of whitespace is
rejected by the trim guard before any request: processRepo issues nothing and
leaves the entire client state unchanged. -/
theorem blank_url_rejected (st : AppState) (o : SubmitOutcome)
    (h : ∀ c ∈ st.repoUrl.data, jsWhitespace c = true) :
    processRepo st o = (st, []) := by
  have ht : jsTrim st.repoUrl = "" := by
    unfold jsTrim
    have h1 : st.repoUrl.data.dropWhile jsWhitespace = [] := by
      rw [List.dropWhile_eq_nil_iff]
      simpa using h
    rw [h1]
    rfl
  unfold processRepo
  rw [if_pos ht]

/-- A state whose locator field holds only whitespace, for the C8 witness. -/
def stC8 : AppState := { initState with repoUrl := " \t " }

theorem blank_url_rejected_witness :
    processRepo stC8 SubmitOutcome.httpError = (stC8, []) :=
  blank_url_rejected stC8 SubmitOutcome.httpError (by decide)

end TalkToRepo
